import Mathlib

/-!
Verification of the admin command layer of `src/server/trpc/routers/admin.ts`
(the `adminRouter`): a shallow embedding of its seven operations over an
explicit identity-store state, with an effect trace recording every store
mutation and email dispatch, and theorems settling the specified properties.

Conventions of the embedding:
* The ambient request context (`ctx.session?.user`) is an `Option SessionUser`
  parameter.
* The Drizzle store (`db`) is a `Store` value of in-memory tables; `findFirst`
  becomes `List.find?`, `insert` appends, `delete ... where eq` filters.
* `nanoid` calls are supplied by a generator parameter `gen : Nat → Nat → String`
  mapping (call index within the operation, requested length) to the produced id;
  the default nanoid length is 21.
* `hashPassword` is an opaque parameter `hash : String → String`.
* `new Date()` is a millisecond timestamp parameter `now`; the JavaScript
  `expiresAt.setDate(expiresAt.getDate() + 7)` adds seven calendar days,
  embedded as `now + 7 * 86400000`.
* A thrown `TRPCError` becomes `Except.error`; each handler's `catch` block is
  embedded faithfully: `createOrg`, `createUser` and `removeUser` re-throw
  `TRPCError`s unchanged, while `inviteUser`'s catch block has no such re-throw
  and converts every error raised inside its `try` into
  `INTERNAL_SERVER_ERROR / "Failed to send invitation"`.
-/

/-- The error codes of the `TRPCError`s raised by the admin router. -/
inductive ErrCode where
  | UNAUTHORIZED
  | NOT_FOUND
  | CONFLICT
  | FORBIDDEN
  | INTERNAL_SERVER_ERROR
deriving DecidableEq, Repr

/-- A `TRPCError` value: code plus human-readable message. -/
structure TRPCErr where
  code : ErrCode
  message : String
deriving DecidableEq, Repr

/-- Row of the `users` table (auth-schema). -/
structure User where
  id : String
  name : String
  email : String
  emailVerified : Bool
  orgId : String
  role : String
  createdAt : Nat
  updatedAt : Nat
deriving DecidableEq, Repr

/-- Row of the `orgs` table. -/
structure Org where
  id : String
  name : String
deriving DecidableEq, Repr

/-- Row of the `accounts` table (credential accounts). -/
structure Account where
  id : String
  userId : String
  providerId : String
  accountId : String
  password : String
  createdAt : Nat
  updatedAt : Nat
deriving DecidableEq, Repr

/-- Row of the `verifications` table (invitation records). -/
structure Verification where
  id : String
  identifier : String
  value : String
  expiresAt : Nat
  createdAt : Nat
  updatedAt : Nat
deriving DecidableEq, Repr

/-- Row of the `community_members` table (only the column the router touches). -/
structure CommunityMember where
  communityId : String
  userId : String
deriving DecidableEq, Repr

/-- Row of the `login_events` table (only the columns the report reads). -/
structure LoginEvent where
  userId : String
  createdAt : Nat
deriving DecidableEq, Repr

/-- The identity store: every table the admin router reads or writes. -/
structure Store where
  users : List User
  orgs : List Org
  accounts : List Account
  verifications : List Verification
  communityMembers : List CommunityMember
  loginEvents : List LoginEvent
deriving DecidableEq, Repr

/-- The authenticated caller identity carried by a resolved session. -/
structure SessionUser where
  id : String
  role : String
deriving DecidableEq, Repr

/-- The per-request context: a resolved session user, or none. -/
abbrev Ctx := Option SessionUser

/-- One observable side effect: a store mutation or an email dispatch. -/
inductive Effect where
  | insertOrg (o : Org)
  | insertUser (u : User)
  | insertAccount (a : Account)
  | insertVerification (v : Verification)
  | deleteCommunityMembersOfUser (userId : String)
  | deleteAccountsOfUser (userId : String)
  | deleteUserById (userId : String)
  | emailSent (recipient subject html : String)
deriving DecidableEq, Repr

deriving instance DecidableEq for Except

/-- The value an operation produces: a result or a `TRPCError`, the resulting
store, and the trace of effects in the order they were performed. -/
abbrev OpResult (α : Type) := Except TRPCErr α × Store × List Effect

/-- The guard `!ctx.session?.user || ctx.session.user.role !== 'admin'`:
`true` exactly when a session user exists and their role is `admin`. -/
def isAdmin : Ctx → Bool
  | none => false
  | some u => u.role == "admin"

/-- `getUsers`: list all users, each joined with its organization
(`db.query.users.findMany({ with: { organization: true } })`). -/
def getUsers (ctx : Ctx) (s : Store) : OpResult (List (User × Option Org)) :=
  if !(isAdmin ctx) then
    (.error ⟨.UNAUTHORIZED, "Only admins can access user management"⟩, s, [])
  else
    (.ok (s.users.map fun u => (u, s.orgs.find? fun o => o.id == u.orgId)), s, [])

/-- `getOrgs`: list all organizations. -/
def getOrgs (ctx : Ctx) (s : Store) : OpResult (List Org) :=
  if !(isAdmin ctx) then
    (.error ⟨.UNAUTHORIZED, "Only admins can access organization management"⟩, s, [])
  else
    (.ok s.orgs, s, [])

/-- `createOrg`: reject a duplicate name with CONFLICT, otherwise insert a new
organization with a generated id and return it. -/
def createOrg (gen : Nat → Nat → String) (ctx : Ctx) (name : String) (s : Store) :
    OpResult Org :=
  if !(isAdmin ctx) then
    (.error ⟨.UNAUTHORIZED, "Only admins can create organizations"⟩, s, [])
  else
    match s.orgs.find? (fun o => o.name == name) with
    | some _ =>
      (.error ⟨.CONFLICT, "An organization with this name already exists"⟩, s, [])
    | none =>
      let newOrg : Org := { id := gen 0 21, name := name }
      (.ok newOrg, { s with orgs := s.orgs ++ [newOrg] }, [.insertOrg newOrg])

/-- Input payload of `createUser`. -/
structure CreateUserInput where
  name : String
  email : String
  password : String
  role : String
  orgId : String
deriving DecidableEq, Repr

/-- `createUser`: NOT_FOUND for a missing org, CONFLICT for a duplicate email,
otherwise insert the user row (pre-verified) and then one credential account
row holding the hashed password, and return the created user. -/
def createUser (gen : Nat → Nat → String) (hash : String → String) (now : Nat)
    (ctx : Ctx) (input : CreateUserInput) (s : Store) : OpResult User :=
  if !(isAdmin ctx) then
    (.error ⟨.UNAUTHORIZED, "Only admins can create users"⟩, s, [])
  else
    match s.orgs.find? (fun o => o.id == input.orgId) with
    | none => (.error ⟨.NOT_FOUND, "Organization not found"⟩, s, [])
    | some _ =>
      match s.users.find? (fun u => u.email == input.email) with
      | some _ =>
        (.error ⟨.CONFLICT, "A user with this email already exists"⟩, s, [])
      | none =>
        let userId := gen 0 21
        let hashedPassword := hash input.password
        let user : User :=
          { id := userId, name := input.name, email := input.email
            emailVerified := true, orgId := input.orgId, role := input.role
            createdAt := now, updatedAt := now }
        let account : Account :=
          { id := gen 1 21, userId := userId, providerId := "credential"
            accountId := userId, password := hashedPassword
            createdAt := now, updatedAt := now }
        (.ok user,
         { s with users := s.users ++ [user], accounts := s.accounts ++ [account] },
         [.insertUser user, .insertAccount account])

/-- Input payload of `inviteUser`. -/
structure InviteUserInput where
  email : String
  orgId : String
  role : String
deriving DecidableEq, Repr

/-- Success payload of `inviteUser`: `{ success: true, email }`. -/
structure InviteResult where
  success : Bool
  email : String
deriving DecidableEq, Repr

/-- `JSON.stringify({ token, orgId, role })` for the invitation payload. -/
def encodeInviteValue (token orgId role : String) : String :=
  "\x7b\"token\":\"" ++ token ++ "\",\"orgId\":\"" ++ orgId ++
    "\",\"role\":\"" ++ role ++ "\"\x7d"

/-- The invitation acceptance URL
`${NEXT_PUBLIC_APP_URL}/auth/register?token=${inviteToken}&email=${input.email}`. -/
def inviteUrl (appUrl token email : String) : String :=
  appUrl ++ "/auth/register?token=" ++ token ++ "&email=" ++ email

/-- The HTML body of the invitation email, built around the acceptance URL. -/
def inviteHtml (orgName url : String) : String :=
  "<h1>You have been invited to join " ++ orgName ++
    "</h1><p>Click the link below to create your account:</p><a href=\"" ++ url ++
    "\">Accept Invitation</a><p>This link will expire in 7 days.</p>"

/-- The body of `inviteUser`'s `try` block: org lookup, duplicate-user check,
invitation persistence, email dispatch. -/
def inviteUserTry (gen : Nat → Nat → String) (now : Nat) (appUrl : String)
    (input : InviteUserInput) (s : Store) : OpResult InviteResult :=
  match s.orgs.find? (fun o => o.id == input.orgId) with
  | none => (.error ⟨.NOT_FOUND, "Organization not found"⟩, s, [])
  | some org =>
    match s.users.find? (fun u => u.email == input.email) with
    | some _ =>
      (.error ⟨.CONFLICT, "A user with this email already exists"⟩, s, [])
    | none =>
      let inviteToken := gen 0 32
      let expiresAt := now + 7 * 86400000
      let record : Verification :=
        { id := gen 1 21, identifier := input.email
          value := encodeInviteValue inviteToken input.orgId input.role
          expiresAt := expiresAt, createdAt := now, updatedAt := now }
      let url := inviteUrl appUrl inviteToken input.email
      let subject := "Invitation to join " ++ org.name
      let html := inviteHtml org.name url
      (.ok { success := true, email := input.email },
       { s with verifications := s.verifications ++ [record] },
       [.insertVerification record, .emailSent input.email subject html])

/-- `inviteUser`: authorization guard, then the `try` body; the handler's
`catch` block has no `instanceof TRPCError` re-throw, so every error raised
inside the `try` — including the NOT_FOUND and CONFLICT it throws itself — is
replaced by `INTERNAL_SERVER_ERROR / "Failed to send invitation"`. -/
def inviteUser (gen : Nat → Nat → String) (now : Nat) (appUrl : String)
    (ctx : Ctx) (input : InviteUserInput) (s : Store) : OpResult InviteResult :=
  if !(isAdmin ctx) then
    (.error ⟨.UNAUTHORIZED, "Only admins can invite users"⟩, s, [])
  else
    match inviteUserTry gen now appUrl input s with
    | (.error _, s2, fx) =>
      (.error ⟨.INTERNAL_SERVER_ERROR, "Failed to send invitation"⟩, s2, fx)
    | ok => ok

/-- Success payload of `removeUser`: `{ success: true }`. -/
structure RemoveResult where
  success : Bool
deriving DecidableEq, Repr

/-- `removeUser`: NOT_FOUND for a missing user, FORBIDDEN for self-removal,
otherwise delete the user's community memberships, then their accounts, then
the user row. -/
def removeUser (ctx : Ctx) (userId : String) (s : Store) : OpResult RemoveResult :=
  match ctx with
  | none => (.error ⟨.UNAUTHORIZED, "Only admins can remove users"⟩, s, [])
  | some caller =>
    if caller.role != "admin" then
      (.error ⟨.UNAUTHORIZED, "Only admins can remove users"⟩, s, [])
    else
      match s.users.find? (fun u => u.id == userId) with
      | none => (.error ⟨.NOT_FOUND, "User not found"⟩, s, [])
      | some user =>
        if user.id == caller.id then
          (.error ⟨.FORBIDDEN, "You cannot remove yourself"⟩, s, [])
        else
          (.ok { success := true },
           { s with
              communityMembers := s.communityMembers.filter fun m => !(m.userId == userId)
              accounts := s.accounts.filter fun a => !(a.userId == userId)
              users := s.users.filter fun u => !(u.id == userId) },
           [.deleteCommunityMembersOfUser userId, .deleteAccountsOfUser userId,
            .deleteUserById userId])

/-- `DATE("created_at")`: the calendar day of a login event's timestamp
(store-local date truncation of a millisecond timestamp). -/
def eventDay (e : LoginEvent) : Nat := e.createdAt / 86400000

/-- `COUNT(DISTINCT "user_id")` restricted to one calendar day. -/
def distinctUsersOn (events : List LoginEvent) (d : Nat) : Nat :=
  ((events.filter fun e => eventDay e == d).map LoginEvent.userId).dedup.length

/-- Insertion into a descending-sorted list (`ORDER BY date DESC`). -/
def insertDesc (d : Nat) : List Nat → List Nat
  | [] => [d]
  | x :: xs => if x < d then d :: x :: xs else x :: insertDesc d xs

/-- Sort a list of days in descending order. -/
def sortDesc (l : List Nat) : List Nat := l.foldr insertDesc []

/-- The aggregate query
`SELECT DATE(created_at), COUNT(DISTINCT user_id) FROM login_events
GROUP BY DATE(created_at) ORDER BY date DESC LIMIT 30`:
one `(date, uniqueLogins)` row per distinct day, newest first, at most 30. -/
def uniqueLoginsPerDay (events : List LoginEvent) : List (Nat × Nat) :=
  ((sortDesc (events.map eventDay).dedup).take 30).map
    fun d => (d, distinctUsersOn events d)

/-- `getUniqueLoginsPerDay`: authorization guard, then the aggregate query. -/
def getUniqueLoginsPerDay (ctx : Ctx) (s : Store) : OpResult (List (Nat × Nat)) :=
  if !(isAdmin ctx) then
    (.error ⟨.UNAUTHORIZED, "Only admins can access login stats"⟩, s, [])
  else
    (.ok (uniqueLoginsPerDay s.loginEvents), s, [])

/-! ### Concrete fixtures used by witnesses -/

/-- A concrete id generator: call `k` with requested length `l` yields `l`
copies of a letter determined by `k`. -/
def gen0 : Nat → Nat → String :=
  fun k l => String.mk (List.replicate l (if k = 0 then 'a' else 'b'))

/-- A concrete stand-in for the opaque password hasher. -/
def hash0 : String → String := fun p => "#" ++ p

/-- A concrete organization. -/
def org0 : Org := { id := "org1", name := "Acme" }

/-- The concrete admin caller used by witnesses. -/
def admin0 : SessionUser := { id := "u1", role := "admin" }

/-- The admin's own user row. -/
def user0 : User :=
  { id := "u1", name := "Alice", email := "alice@x.com", emailVerified := true
    orgId := "org1", role := "admin", createdAt := 0, updatedAt := 0 }

/-- A second, removable user row. -/
def user1 : User :=
  { id := "u2", name := "Bob", email := "bob@x.com", emailVerified := true
    orgId := "org1", role := "user", createdAt := 0, updatedAt := 0 }

/-- The credential account of `user1`. -/
def acct1 : Account :=
  { id := "acc2", userId := "u2", providerId := "credential", accountId := "u2"
    password := "#pw", createdAt := 0, updatedAt := 0 }

/-- A community membership of `user1`. -/
def mem1 : CommunityMember := { communityId := "c1", userId := "u2" }

/-- A pending invitation record for `new@x.com`. -/
def pend0 : Verification :=
  { id := "v1", identifier := "new@x.com", value := "old-payload"
    expiresAt := 5, createdAt := 0, updatedAt := 0 }

/-- The concrete store used by witnesses: two users, one org, one credential
account, one pending invitation, one membership, three login events. -/
def store0 : Store :=
  { users := [user0, user1], orgs := [org0], accounts := [acct1]
    verifications := [pend0], communityMembers := [mem1]
    loginEvents := [⟨"u1", 86400000⟩, ⟨"u2", 86400001⟩, ⟨"u1", 1⟩] }

/-! ### Theorems -/

/-- C1: for every one of the six admin operations and the unique-logins query,
a caller whose session is absent or whose role is not `admin` gets an
UNAUTHORIZED error, for arbitrary inputs and arbitrary store state (so the
authorization check precedes all other validation), the store is returned
unchanged, and the effect trace is empty. -/
theorem adminOps_unauthorized_noMutation
    (ctx : Ctx) (h : ctx = none ∨ ∃ u, ctx = some u ∧ u.role ≠ "admin")
    (gen : Nat → Nat → String) (hash : String → String) (now : Nat)
    (appUrl orgName : String) (cu : CreateUserInput) (iu : InviteUserInput)
    (uid : String) (s : Store) :
    getUsers ctx s =
      (.error ⟨.UNAUTHORIZED, "Only admins can access user management"⟩, s, []) ∧
    getOrgs ctx s =
      (.error ⟨.UNAUTHORIZED, "Only admins can access organization management"⟩, s, []) ∧
    createOrg gen ctx orgName s =
      (.error ⟨.UNAUTHORIZED, "Only admins can create organizations"⟩, s, []) ∧
    createUser gen hash now ctx cu s =
      (.error ⟨.UNAUTHORIZED, "Only admins can create users"⟩, s, []) ∧
    inviteUser gen now appUrl ctx iu s =
      (.error ⟨.UNAUTHORIZED, "Only admins can invite users"⟩, s, []) ∧
    removeUser ctx uid s =
      (.error ⟨.UNAUTHORIZED, "Only admins can remove users"⟩, s, []) ∧
    getUniqueLoginsPerDay ctx s =
      (.error ⟨.UNAUTHORIZED, "Only admins can access login stats"⟩, s, []) := by
  have hA : isAdmin ctx = false := by
    rcases h with rfl | ⟨u, rfl, hu⟩
    · rfl
    · simpa [isAdmin] using hu
  have hR : removeUser ctx uid s =
      (.error ⟨.UNAUTHORIZED, "Only admins can remove users"⟩, s, []) := by
    rcases h with rfl | ⟨u, rfl, hu⟩
    · rfl
    · simp [removeUser, bne_iff_ne, hu]
  refine ⟨?_, ?_, ?_, ?_, ?_, hR, ?_⟩ <;>
    simp [getUsers, getOrgs, createOrg, createUser, inviteUser,
      getUniqueLoginsPerDay, hA]

/-- Witness for the authorization theorem: an absent session against the
concrete store. -/
theorem adminOps_unauthorized_noMutation_witness :
    getUsers none store0 =
      (.error ⟨.UNAUTHORIZED, "Only admins can access user management"⟩, store0, []) ∧
    getOrgs none store0 =
      (.error ⟨.UNAUTHORIZED, "Only admins can access organization management"⟩, store0, []) ∧
    createOrg gen0 none "Acme" store0 =
      (.error ⟨.UNAUTHORIZED, "Only admins can create organizations"⟩, store0, []) ∧
    createUser gen0 hash0 0 none ⟨"A", "a@x.com", "password123", "user", "org1"⟩ store0 =
      (.error ⟨.UNAUTHORIZED, "Only admins can create users"⟩, store0, []) ∧
    inviteUser gen0 0 "https://app" none ⟨"new@x.com", "org1", "user"⟩ store0 =
      (.error ⟨.UNAUTHORIZED, "Only admins can invite users"⟩, store0, []) ∧
    removeUser none "u2" store0 =
      (.error ⟨.UNAUTHORIZED, "Only admins can remove users"⟩, store0, []) ∧
    getUniqueLoginsPerDay none store0 =
      (.error ⟨.UNAUTHORIZED, "Only admins can access login stats"⟩, store0, []) :=
  adminOps_unauthorized_noMutation none (Or.inl rfl) gen0 hash0 0 "https://app"
    "Acme" ⟨"A", "a@x.com", "password123", "user", "org1"⟩
    ⟨"new@x.com", "org1", "user"⟩ "u2" store0

/-- C5: for an admin caller, `createUser` with an `orgId` matching no existing
organization fails with NOT_FOUND, and with an existing org but an email some
user already has it fails with CONFLICT; in both cases the store is unchanged
and no effect is performed. -/
theorem createUser_validation_noMutation
    (gen : Nat → Nat → String) (hash : String → String) (now : Nat)
    (ctx : Ctx) (input : CreateUserInput) (s : Store)
    (hadmin : isAdmin ctx = true) :
    ((∀ o ∈ s.orgs, o.id ≠ input.orgId) →
      createUser gen hash now ctx input s =
        (.error ⟨.NOT_FOUND, "Organization not found"⟩, s, [])) ∧
    ((∃ o ∈ s.orgs, o.id = input.orgId) →
      (∃ u ∈ s.users, u.email = input.email) →
      createUser gen hash now ctx input s =
        (.error ⟨.CONFLICT, "A user with this email already exists"⟩, s, [])) := by
  constructor
  · intro h
    have hf : s.orgs.find? (fun o => o.id == input.orgId) = none := by
      rw [List.find?_eq_none]
      intro o ho
      simpa using h o ho
    simp [createUser, hadmin, hf]
  · rintro ⟨o, ho, hid⟩ ⟨u, hu, he⟩
    have h1 : (s.orgs.find? (fun o => o.id == input.orgId)).isSome := by
      rw [List.find?_isSome]
      exact ⟨o, ho, by simp [hid]⟩
    have h2 : (s.users.find? (fun v => v.email == input.email)).isSome := by
      rw [List.find?_isSome]
      exact ⟨u, hu, by simp [he]⟩
    obtain ⟨org, horg⟩ := Option.isSome_iff_exists.mp h1
    obtain ⟨usr, husr⟩ := Option.isSome_iff_exists.mp h2
    simp [createUser, hadmin, horg, husr]

/-- Witness for the `createUser` validation theorem: the concrete admin against
the concrete store, with a missing org for the first branch and the admin's
own email for the second. -/
theorem createUser_validation_noMutation_witness :
    ((∀ o ∈ store0.orgs, o.id ≠ "missing") →
      createUser gen0 hash0 0 (some admin0)
          ⟨"A", "alice@x.com", "password123", "user", "missing"⟩ store0 =
        (.error ⟨.NOT_FOUND, "Organization not found"⟩, store0, [])) ∧
    ((∃ o ∈ store0.orgs, o.id = "missing") →
      (∃ u ∈ store0.users, u.email = "alice@x.com") →
      createUser gen0 hash0 0 (some admin0)
          ⟨"A", "alice@x.com", "password123", "user", "missing"⟩ store0 =
        (.error ⟨.CONFLICT, "A user with this email already exists"⟩, store0, [])) :=
  createUser_validation_noMutation gen0 hash0 0 (some admin0)
    ⟨"A", "alice@x.com", "password123", "user", "missing"⟩ store0 rfl

/-- C4: for an admin caller, an existing org and a fresh email, `createUser`
appends the user row (pre-verified, with the given fields and `now` as both
timestamps) and then exactly one credential account row (provider
`"credential"`, account id equal to the new user id, hashed password); the
trace inserts the user strictly before the credential row, and the created
user is returned. -/
theorem createUser_success_userRow_then_credentialRow
    (gen : Nat → Nat → String) (hash : String → String) (now : Nat)
    (ctx : Ctx) (input : CreateUserInput) (s : Store)
    (hadmin : isAdmin ctx = true)
    (horg : ∃ o ∈ s.orgs, o.id = input.orgId)
    (hemail : ∀ u ∈ s.users, u.email ≠ input.email) :
    createUser gen hash now ctx input s =
      (.ok
        { id := gen 0 21, name := input.name, email := input.email
          emailVerified := true, orgId := input.orgId, role := input.role
          createdAt := now, updatedAt := now },
       { s with
          users := s.users ++
            [{ id := gen 0 21, name := input.name, email := input.email
               emailVerified := true, orgId := input.orgId, role := input.role
               createdAt := now, updatedAt := now }]
          accounts := s.accounts ++
            [{ id := gen 1 21, userId := gen 0 21, providerId := "credential"
               accountId := gen 0 21, password := hash input.password
               createdAt := now, updatedAt := now }] },
       [.insertUser
          { id := gen 0 21, name := input.name, email := input.email
            emailVerified := true, orgId := input.orgId, role := input.role
            createdAt := now, updatedAt := now },
        .insertAccount
          { id := gen 1 21, userId := gen 0 21, providerId := "credential"
            accountId := gen 0 21, password := hash input.password
            createdAt := now, updatedAt := now }]) := by
  obtain ⟨o, ho, hid⟩ := horg
  have h1 : (s.orgs.find? (fun o => o.id == input.orgId)).isSome := by
    rw [List.find?_isSome]
    exact ⟨o, ho, by simp [hid]⟩
  obtain ⟨org, horgf⟩ := Option.isSome_iff_exists.mp h1
  have h2 : s.users.find? (fun u => u.email == input.email) = none := by
    rw [List.find?_eq_none]
    intro u hu
    simpa using hemail u hu
  simp [createUser, hadmin, horgf, h2]

/-- Witness for the `createUser` success theorem: creating `carol@x.com` in the
concrete org. -/
theorem createUser_success_userRow_then_credentialRow_witness :
    createUser gen0 hash0 5 (some admin0)
        ⟨"Carol", "carol@x.com", "password123", "user", "org1"⟩ store0 =
      (.ok
        { id := gen0 0 21, name := "Carol", email := "carol@x.com"
          emailVerified := true, orgId := "org1", role := "user"
          createdAt := 5, updatedAt := 5 },
       { store0 with
          users := store0.users ++
            [{ id := gen0 0 21, name := "Carol", email := "carol@x.com"
               emailVerified := true, orgId := "org1", role := "user"
               createdAt := 5, updatedAt := 5 }]
          accounts := store0.accounts ++
            [{ id := gen0 1 21, userId := gen0 0 21, providerId := "credential"
               accountId := gen0 0 21, password := hash0 "password123"
               createdAt := 5, updatedAt := 5 }] },
       [.insertUser
          { id := gen0 0 21, name := "Carol", email := "carol@x.com"
            emailVerified := true, orgId := "org1", role := "user"
            createdAt := 5, updatedAt := 5 },
        .insertAccount
          { id := gen0 1 21, userId := gen0 0 21, providerId := "credential"
            accountId := gen0 0 21, password := hash0 "password123"
            createdAt := 5, updatedAt := 5 }]) :=
  createUser_success_userRow_then_credentialRow gen0 hash0 5 (some admin0)
    ⟨"Carol", "carol@x.com", "password123", "user", "org1"⟩ store0 rfl
    ⟨org0, by simp [store0], rfl⟩ (by decide)

/-- C6: for an admin caller and a non-empty name, `createOrg` fails with
CONFLICT and leaves the store unchanged when an organization with exactly that
stored name exists; otherwise it inserts and returns a new organization built
from the generated id and the given name — and issuing the call again on the
resulting store fails with CONFLICT, leaving exactly one organization with
that name. -/
theorem createOrg_unique_name
    (gen gen2 : Nat → Nat → String) (ctx : Ctx) (name : String) (s : Store)
    (hadmin : isAdmin ctx = true) (hname : name ≠ "") :
    ((∃ o ∈ s.orgs, o.name = name) →
      createOrg gen ctx name s =
        (.error ⟨.CONFLICT, "An organization with this name already exists"⟩, s, [])) ∧
    ((∀ o ∈ s.orgs, o.name ≠ name) →
      createOrg gen ctx name s =
        (.ok ⟨gen 0 21, name⟩, { s with orgs := s.orgs ++ [⟨gen 0 21, name⟩] },
         [.insertOrg ⟨gen 0 21, name⟩]) ∧
      createOrg gen2 ctx name { s with orgs := s.orgs ++ [⟨gen 0 21, name⟩] } =
        (.error ⟨.CONFLICT, "An organization with this name already exists"⟩,
         { s with orgs := s.orgs ++ [⟨gen 0 21, name⟩] }, []) ∧
      ((s.orgs ++ [(⟨gen 0 21, name⟩ : Org)]).filter (fun o => o.name == name)).length = 1) := by
  constructor
  · rintro ⟨o, ho, hn⟩
    have h1 : (s.orgs.find? (fun o => o.name == name)).isSome := by
      rw [List.find?_isSome]
      exact ⟨o, ho, by simp [hn]⟩
    obtain ⟨org, hf⟩ := Option.isSome_iff_exists.mp h1
    simp [createOrg, hadmin, hf]
  · intro h
    have hf : s.orgs.find? (fun o => o.name == name) = none := by
      rw [List.find?_eq_none]
      intro o ho
      simpa using h o ho
    have hf2 : (s.orgs ++ [(⟨gen 0 21, name⟩ : Org)]).find?
        (fun o => o.name == name) = some ⟨gen 0 21, name⟩ := by
      rw [List.find?_append, hf]
      simp
    have hnil : s.orgs.filter (fun o => o.name == name) = [] := by
      rw [List.filter_eq_nil_iff]
      intro o ho
      simpa using h o ho
    refine ⟨by simp [createOrg, hadmin, hf], by simp [createOrg, hadmin, hf2], ?_⟩
    rw [List.filter_append, hnil]
    simp

/-- Witness for the `createOrg` theorem: the name `"NewCo"` absent from the
concrete store, exercising the insert-then-conflict branch. -/
theorem createOrg_unique_name_witness :
    ((∃ o ∈ store0.orgs, o.name = "NewCo") →
      createOrg gen0 (some admin0) "NewCo" store0 =
        (.error ⟨.CONFLICT, "An organization with this name already exists"⟩, store0, [])) ∧
    ((∀ o ∈ store0.orgs, o.name ≠ "NewCo") →
      createOrg gen0 (some admin0) "NewCo" store0 =
        (.ok ⟨gen0 0 21, "NewCo"⟩,
         { store0 with orgs := store0.orgs ++ [⟨gen0 0 21, "NewCo"⟩] },
         [.insertOrg ⟨gen0 0 21, "NewCo"⟩]) ∧
      createOrg gen0 (some admin0) "NewCo"
          { store0 with orgs := store0.orgs ++ [⟨gen0 0 21, "NewCo"⟩] } =
        (.error ⟨.CONFLICT, "An organization with this name already exists"⟩,
         { store0 with orgs := store0.orgs ++ [⟨gen0 0 21, "NewCo"⟩] }, []) ∧
      ((store0.orgs ++ [(⟨gen0 0 21, "NewCo"⟩ : Org)]).filter
          (fun o => o.name == "NewCo")).length = 1) :=
  createOrg_unique_name gen0 gen0 (some admin0) "NewCo" store0 rfl (by decide)

/-- C3: for an admin caller, `removeUser` fails with NOT_FOUND when no user has
the given id; fails with FORBIDDEN when the target is the caller themself; and
otherwise deletes the target's community memberships, then their credential
accounts, then the user row (in that trace order), returns `{success := true}`,
and a subsequent `getUsers` no longer lists the removed id. -/
theorem removeUser_behavior
    (caller : SessionUser) (uid : String) (s : Store)
    (hadmin : caller.role = "admin") :
    ((∀ u ∈ s.users, u.id ≠ uid) →
      removeUser (some caller) uid s = (.error ⟨.NOT_FOUND, "User not found"⟩, s, [])) ∧
    ((∃ u ∈ s.users, u.id = uid) → uid = caller.id →
      removeUser (some caller) uid s =
        (.error ⟨.FORBIDDEN, "You cannot remove yourself"⟩, s, [])) ∧
    ((∃ u ∈ s.users, u.id = uid) → uid ≠ caller.id →
      removeUser (some caller) uid s =
        (.ok ⟨true⟩,
         { s with
            communityMembers := s.communityMembers.filter fun m => !(m.userId == uid)
            accounts := s.accounts.filter fun a => !(a.userId == uid)
            users := s.users.filter fun u => !(u.id == uid) },
         [.deleteCommunityMembersOfUser uid, .deleteAccountsOfUser uid,
          .deleteUserById uid]) ∧
      getUsers (some caller)
          { s with
             communityMembers := s.communityMembers.filter fun m => !(m.userId == uid)
             accounts := s.accounts.filter fun a => !(a.userId == uid)
             users := s.users.filter fun u => !(u.id == uid) } =
        (.ok ((s.users.filter fun u => !(u.id == uid)).map
            fun u => (u, s.orgs.find? fun o => o.id == u.orgId)),
         { s with
            communityMembers := s.communityMembers.filter fun m => !(m.userId == uid)
            accounts := s.accounts.filter fun a => !(a.userId == uid)
            users := s.users.filter fun u => !(u.id == uid) }, []) ∧
      ∀ r ∈ (s.users.filter fun u => !(u.id == uid)).map
          (fun u => (u, s.orgs.find? fun o => o.id == u.orgId)),
        r.1.id ≠ uid) := by
  refine ⟨?_, ?_, ?_⟩
  · intro h
    have hf : s.users.find? (fun u => u.id == uid) = none := by
      rw [List.find?_eq_none]
      intro u hu
      simpa using h u hu
    simp [removeUser, hadmin, hf]
  · rintro ⟨u, hu, hid⟩ he
    subst he
    have h1 : (s.users.find? (fun v => v.id == caller.id)).isSome := by
      rw [List.find?_isSome]
      exact ⟨u, hu, by simp [hid]⟩
    obtain ⟨u0, hf⟩ := Option.isSome_iff_exists.mp h1
    have hu0 : u0.id = caller.id := by
      have := List.find?_some hf
      simpa using this
    simp [removeUser, hadmin, hf, hu0]
  · rintro ⟨u, hu, hid⟩ he
    have h1 : (s.users.find? (fun u => u.id == uid)).isSome := by
      rw [List.find?_isSome]
      exact ⟨u, hu, by simp [hid]⟩
    obtain ⟨u0, hf⟩ := Option.isSome_iff_exists.mp h1
    have hu0 : u0.id = uid := by
      have := List.find?_some hf
      simpa using this
    refine ⟨by simp [removeUser, hadmin, hf, hu0, he], ?_, ?_⟩
    · simp [getUsers, isAdmin, hadmin]
    · intro r hr
      simp only [List.mem_map] at hr
      obtain ⟨v, hv, rfl⟩ := hr
      have := (List.mem_filter.mp hv).2
      simpa using this

/-- Witness for the `removeUser` theorem: the admin removes `user1` (`"u2"`)
from the concrete store. -/
theorem removeUser_behavior_witness :
    ((∀ u ∈ store0.users, u.id ≠ "u2") →
      removeUser (some admin0) "u2" store0 =
        (.error ⟨.NOT_FOUND, "User not found"⟩, store0, [])) ∧
    ((∃ u ∈ store0.users, u.id = "u2") → "u2" = admin0.id →
      removeUser (some admin0) "u2" store0 =
        (.error ⟨.FORBIDDEN, "You cannot remove yourself"⟩, store0, [])) ∧
    ((∃ u ∈ store0.users, u.id = "u2") → "u2" ≠ admin0.id →
      removeUser (some admin0) "u2" store0 =
        (.ok ⟨true⟩,
         { store0 with
            communityMembers := store0.communityMembers.filter fun m => !(m.userId == "u2")
            accounts := store0.accounts.filter fun a => !(a.userId == "u2")
            users := store0.users.filter fun u => !(u.id == "u2") },
         [.deleteCommunityMembersOfUser "u2", .deleteAccountsOfUser "u2",
          .deleteUserById "u2"]) ∧
      getUsers (some admin0)
          { store0 with
             communityMembers := store0.communityMembers.filter fun m => !(m.userId == "u2")
             accounts := store0.accounts.filter fun a => !(a.userId == "u2")
             users := store0.users.filter fun u => !(u.id == "u2") } =
        (.ok ((store0.users.filter fun u => !(u.id == "u2")).map
            fun u => (u, store0.orgs.find? fun o => o.id == u.orgId)),
         { store0 with
            communityMembers := store0.communityMembers.filter fun m => !(m.userId == "u2")
            accounts := store0.accounts.filter fun a => !(a.userId == "u2")
            users := store0.users.filter fun u => !(u.id == "u2") }, []) ∧
      ∀ r ∈ (store0.users.filter fun u => !(u.id == "u2")).map
          (fun u => (u, store0.orgs.find? fun o => o.id == u.orgId)),
        r.1.id ≠ "u2") :=
  removeUser_behavior admin0 "u2" store0 rfl

/-- C10: a successful `removeUser` rewrites only the community-membership,
account and user tables; the org, verification and login-event tables are
returned unchanged, so every pending invitation record survives the removal. -/
theorem removeUser_frame_orgs_verifications_untouched
    (caller : SessionUser) (uid : String) (s : Store)
    (hadmin : caller.role = "admin")
    (huser : ∃ u ∈ s.users, u.id = uid) (hself : uid ≠ caller.id) :
    (removeUser (some caller) uid s).2.1 =
      { s with
         communityMembers := s.communityMembers.filter fun m => !(m.userId == uid)
         accounts := s.accounts.filter fun a => !(a.userId == uid)
         users := s.users.filter fun u => !(u.id == uid) } ∧
    (removeUser (some caller) uid s).2.1.orgs = s.orgs ∧
    (removeUser (some caller) uid s).2.1.verifications = s.verifications ∧
    (removeUser (some caller) uid s).2.1.loginEvents = s.loginEvents ∧
    ∀ v ∈ s.verifications, v ∈ (removeUser (some caller) uid s).2.1.verifications := by
  obtain ⟨u, hu, hid⟩ := huser
  have h1 : (s.users.find? (fun v => v.id == uid)).isSome := by
    rw [List.find?_isSome]
    exact ⟨u, hu, by simp [hid]⟩
  obtain ⟨u0, hf⟩ := Option.isSome_iff_exists.mp h1
  have hu0 : u0.id = uid := by
    have := List.find?_some hf
    simpa using this
  refine ⟨?_, ?_, ?_, ?_, ?_⟩ <;> simp [removeUser, hadmin, hf, hu0, hself]

/-- Witness for the `removeUser` frame theorem: removing `"u2"` from the
concrete store, which holds a pending invitation. -/
theorem removeUser_frame_orgs_verifications_untouched_witness :
    (removeUser (some admin0) "u2" store0).2.1 =
      { store0 with
         communityMembers := store0.communityMembers.filter fun m => !(m.userId == "u2")
         accounts := store0.accounts.filter fun a => !(a.userId == "u2")
         users := store0.users.filter fun u => !(u.id == "u2") } ∧
    (removeUser (some admin0) "u2" store0).2.1.orgs = store0.orgs ∧
    (removeUser (some admin0) "u2" store0).2.1.verifications = store0.verifications ∧
    (removeUser (some admin0) "u2" store0).2.1.loginEvents = store0.loginEvents ∧
    ∀ v ∈ store0.verifications, v ∈ (removeUser (some admin0) "u2" store0).2.1.verifications :=
  removeUser_frame_orgs_verifications_untouched admin0 "u2" store0 rfl
    ⟨user1, by simp [store0], rfl⟩ (by decide)

/-- C7: for an admin caller, an existing org and a fresh email, `inviteUser`
appends exactly one invitation record — identifier the target email, payload
the JSON encoding of the 32-character token with the org id and role, expiry
exactly seven days after issuance — then dispatches exactly one email to that
address whose body carries the acceptance URL built from the same token, and
returns `{success := true, email}`. -/
theorem inviteUser_success_record_and_email
    (gen : Nat → Nat → String) (now : Nat) (appUrl : String)
    (ctx : Ctx) (input : InviteUserInput) (s : Store) (org : Org)
    (hadmin : isAdmin ctx = true)
    (horg : s.orgs.find? (fun o => o.id == input.orgId) = some org)
    (hemail : ∀ u ∈ s.users, u.email ≠ input.email)
    (hlen : (gen 0 32).length = 32) :
    inviteUser gen now appUrl ctx input s =
      (.ok ⟨true, input.email⟩,
       { s with verifications := s.verifications ++
          [{ id := gen 1 21, identifier := input.email
             value := encodeInviteValue (gen 0 32) input.orgId input.role
             expiresAt := now + 7 * 86400000, createdAt := now, updatedAt := now }] },
       [.insertVerification
          { id := gen 1 21, identifier := input.email
            value := encodeInviteValue (gen 0 32) input.orgId input.role
            expiresAt := now + 7 * 86400000, createdAt := now, updatedAt := now },
        .emailSent input.email ("Invitation to join " ++ org.name)
          (inviteHtml org.name (inviteUrl appUrl (gen 0 32) input.email))]) ∧
    (gen 0 32).length = 32 := by
  have hu : s.users.find? (fun u => u.email == input.email) = none := by
    rw [List.find?_eq_none]
    intro u hmem
    simpa using hemail u hmem
  refine ⟨?_, hlen⟩
  have hTry : inviteUserTry gen now appUrl input s =
      (.ok ⟨true, input.email⟩,
       { s with verifications := s.verifications ++
          [{ id := gen 1 21, identifier := input.email
             value := encodeInviteValue (gen 0 32) input.orgId input.role
             expiresAt := now + 7 * 86400000, createdAt := now, updatedAt := now }] },
       [.insertVerification
          { id := gen 1 21, identifier := input.email
            value := encodeInviteValue (gen 0 32) input.orgId input.role
            expiresAt := now + 7 * 86400000, createdAt := now, updatedAt := now },
        .emailSent input.email ("Invitation to join " ++ org.name)
          (inviteHtml org.name (inviteUrl appUrl (gen 0 32) input.email))]) := by
    simp [inviteUserTry, horg, hu]
  simp [inviteUser, hadmin, hTry]

/-- Witness for the `inviteUser` success theorem: inviting `new@x.com` into the
concrete org. -/
theorem inviteUser_success_record_and_email_witness :
    inviteUser gen0 10 "https://app" (some admin0) ⟨"new@x.com", "org1", "user"⟩ store0 =
      (.ok ⟨true, "new@x.com"⟩,
       { store0 with verifications := store0.verifications ++
          [{ id := gen0 1 21, identifier := "new@x.com"
             value := encodeInviteValue (gen0 0 32) "org1" "user"
             expiresAt := 10 + 7 * 86400000, createdAt := 10, updatedAt := 10 }] },
       [.insertVerification
          { id := gen0 1 21, identifier := "new@x.com"
            value := encodeInviteValue (gen0 0 32) "org1" "user"
            expiresAt := 10 + 7 * 86400000, createdAt := 10, updatedAt := 10 },
        .emailSent "new@x.com" ("Invitation to join " ++ org0.name)
          (inviteHtml org0.name (inviteUrl "https://app" (gen0 0 32) "new@x.com"))]) ∧
    (gen0 0 32).length = 32 :=
  inviteUser_success_record_and_email gen0 10 "https://app" (some admin0)
    ⟨"new@x.com", "org1", "user"⟩ store0 org0 rfl (by decide) (by decide) (by decide)

/-- Predicate picking the email-dispatch effects out of a trace. -/
def isEmailDispatch : Effect → Bool
  | .emailSent _ _ _ => true
  | _ => false

/-- C9: the duplicate check of `inviteUser` consults only the users table, so
for an admin caller, an existing org and an email with no user record the call
succeeds and appends a fresh invitation record even if pending invitations for
that email already exist: the number of invitation records for the email grows
by one, and exactly one email dispatch happens. -/
theorem inviteUser_accumulates_pending_invitations
    (gen : Nat → Nat → String) (now : Nat) (appUrl : String)
    (ctx : Ctx) (input : InviteUserInput) (s : Store) (org : Org)
    (hadmin : isAdmin ctx = true)
    (horg : s.orgs.find? (fun o => o.id == input.orgId) = some org)
    (hemail : ∀ u ∈ s.users, u.email ≠ input.email) :
    (inviteUser gen now appUrl ctx input s).1 = .ok ⟨true, input.email⟩ ∧
    (inviteUser gen now appUrl ctx input s).2.1.verifications =
      s.verifications ++
        [{ id := gen 1 21, identifier := input.email
           value := encodeInviteValue (gen 0 32) input.orgId input.role
           expiresAt := now + 7 * 86400000, createdAt := now, updatedAt := now }] ∧
    ((inviteUser gen now appUrl ctx input s).2.1.verifications.filter
        (fun v => v.identifier == input.email)).length =
      (s.verifications.filter (fun v => v.identifier == input.email)).length + 1 ∧
    ((inviteUser gen now appUrl ctx input s).2.2.filter isEmailDispatch).length = 1 := by
  have hu : s.users.find? (fun u => u.email == input.email) = none := by
    rw [List.find?_eq_none]
    intro u hmem
    simpa using hemail u hmem
  have hTry : inviteUserTry gen now appUrl input s =
      (.ok ⟨true, input.email⟩,
       { s with verifications := s.verifications ++
          [{ id := gen 1 21, identifier := input.email
             value := encodeInviteValue (gen 0 32) input.orgId input.role
             expiresAt := now + 7 * 86400000, createdAt := now, updatedAt := now }] },
       [.insertVerification
          { id := gen 1 21, identifier := input.email
            value := encodeInviteValue (gen 0 32) input.orgId input.role
            expiresAt := now + 7 * 86400000, createdAt := now, updatedAt := now },
        .emailSent input.email ("Invitation to join " ++ org.name)
          (inviteHtml org.name (inviteUrl appUrl (gen 0 32) input.email))]) := by
    simp [inviteUserTry, horg, hu]
  refine ⟨?_, ?_, ?_, ?_⟩ <;>
    simp [inviteUser, hadmin, hTry, List.filter_append, isEmailDispatch]

/-- Witness for the invitation-accumulation theorem: `store0` already holds the
pending invitation `pend0` for `new@x.com`, and the repeated invitation still
succeeds and takes the count of records for that address from one to two. -/
theorem inviteUser_accumulates_pending_invitations_witness :
    (inviteUser gen0 10 "https://app" (some admin0)
        ⟨"new@x.com", "org1", "user"⟩ store0).1 = .ok ⟨true, "new@x.com"⟩ ∧
    (inviteUser gen0 10 "https://app" (some admin0)
        ⟨"new@x.com", "org1", "user"⟩ store0).2.1.verifications =
      store0.verifications ++
        [{ id := gen0 1 21, identifier := "new@x.com"
           value := encodeInviteValue (gen0 0 32) "org1" "user"
           expiresAt := 10 + 7 * 86400000, createdAt := 10, updatedAt := 10 }] ∧
    ((inviteUser gen0 10 "https://app" (some admin0)
        ⟨"new@x.com", "org1", "user"⟩ store0).2.1.verifications.filter
        (fun v => v.identifier == "new@x.com")).length =
      (store0.verifications.filter (fun v => v.identifier == "new@x.com")).length + 1 ∧
    ((inviteUser gen0 10 "https://app" (some admin0)
        ⟨"new@x.com", "org1", "user"⟩ store0).2.2.filter isEmailDispatch).length = 1 :=
  inviteUser_accumulates_pending_invitations gen0 10 "https://app" (some admin0)
    ⟨"new@x.com", "org1", "user"⟩ store0 org0 rfl (by decide) (by decide)

/-- C2: contrary to the claim, an admin-authorized `inviteUser` with a missing
org does not fail with NOT_FOUND, and one with an already-used email does not
fail with CONFLICT: the handler's catch block lacks the `instanceof TRPCError`
re-throw its sibling handlers have, so both typed rejections are swallowed and
reported as INTERNAL_SERVER_ERROR ("Failed to send invitation"). -/
theorem inviteUser_typed_rejections_become_internal :
    inviteUser gen0 0 "https://app" (some admin0)
        ⟨"new@x.com", "missing", "user"⟩ store0 =
      (.error ⟨.INTERNAL_SERVER_ERROR, "Failed to send invitation"⟩, store0, []) ∧
    inviteUser gen0 0 "https://app" (some admin0)
        ⟨"alice@x.com", "org1", "user"⟩ store0 =
      (.error ⟨.INTERNAL_SERVER_ERROR, "Failed to send invitation"⟩, store0, []) ∧
    inviteUser gen0 0 "https://app" (some admin0)
        ⟨"new@x.com", "missing", "user"⟩ store0 ≠
      (.error ⟨.NOT_FOUND, "Organization not found"⟩, store0, []) ∧
    inviteUser gen0 0 "https://app" (some admin0)
        ⟨"alice@x.com", "org1", "user"⟩ store0 ≠
      (.error ⟨.CONFLICT, "A user with this email already exists"⟩, store0, []) := by
  decide

/-- Membership in `insertDesc`: the inserted day plus the old members. -/
theorem mem_insertDesc {a d : Nat} {l : List Nat} :
    a ∈ insertDesc d l ↔ a = d ∨ a ∈ l := by
  induction l with
  | nil => simp [insertDesc]
  | cons x xs ih =>
    simp only [insertDesc]
    split
    · simp only [List.mem_cons]
    · simp only [List.mem_cons, ih]
      tauto

/-- `insertDesc` preserves strict descending order when the inserted day is
not already present. -/
theorem pairwise_insertDesc {d : Nat} {l : List Nat}
    (hs : l.Pairwise (fun a b => b < a)) (hd : d ∉ l) :
    (insertDesc d l).Pairwise (fun a b => b < a) := by
  induction l with
  | nil => simp [insertDesc]
  | cons x xs ih =>
    rw [List.pairwise_cons] at hs
    obtain ⟨hx, hxs⟩ := hs
    simp only [insertDesc]
    split
    · rename_i hlt
      refine List.pairwise_cons.mpr ⟨?_, List.pairwise_cons.mpr ⟨hx, hxs⟩⟩
      intro b hb
      rcases List.mem_cons.mp hb with rfl | hb
      · exact hlt
      · exact lt_trans (hx b hb) hlt
    · rename_i hnlt
      have hdx : d < x :=
        lt_of_le_of_ne (not_lt.mp hnlt) fun h => hd (h ▸ List.mem_cons_self x xs)
      refine List.pairwise_cons.mpr
        ⟨?_, ih hxs fun h => hd (List.mem_cons_of_mem x h)⟩
      intro b hb
      rcases mem_insertDesc.mp hb with rfl | hb
      · exact hdx
      · exact hx b hb

/-- `sortDesc` does not change the set of days. -/
theorem mem_sortDesc {a : Nat} {l : List Nat} : a ∈ sortDesc l ↔ a ∈ l := by
  induction l with
  | nil => simp [sortDesc]
  | cons x xs ih =>
    rw [show sortDesc (x :: xs) = insertDesc x (sortDesc xs) from rfl,
      mem_insertDesc, ih, List.mem_cons]

/-- `sortDesc` of a duplicate-free list is strictly descending. -/
theorem pairwise_sortDesc {l : List Nat} (h : l.Nodup) :
    (sortDesc l).Pairwise (fun a b => b < a) := by
  induction l with
  | nil => simp [sortDesc]
  | cons x xs ih =>
    rw [List.nodup_cons] at h
    rw [show sortDesc (x :: xs) = insertDesc x (sortDesc xs) from rfl]
    exact pairwise_insertDesc (ih h.2) fun hm => h.1 (mem_sortDesc.mp hm)

/-- C8: for an admin caller, `getUniqueLoginsPerDay` reads the login-event log
without mutating anything and returns at most 30 rows, strictly descending by
calendar date, each row's count being the number of distinct user ids with at
least one login event on that date. -/
theorem getUniqueLoginsPerDay_report
    (ctx : Ctx) (s : Store) (hadmin : isAdmin ctx = true) :
    getUniqueLoginsPerDay ctx s = (.ok (uniqueLoginsPerDay s.loginEvents), s, []) ∧
    (uniqueLoginsPerDay s.loginEvents).length ≤ 30 ∧
    (uniqueLoginsPerDay s.loginEvents).Pairwise (fun p q => q.1 < p.1) ∧
    ∀ p ∈ uniqueLoginsPerDay s.loginEvents,
      p.2 = ((s.loginEvents.filter fun e => eventDay e == p.1).map
        LoginEvent.userId).toFinset.card := by
  refine ⟨by simp [getUniqueLoginsPerDay, hadmin], ?_, ?_, ?_⟩
  · unfold uniqueLoginsPerDay
    rw [List.length_map, List.length_take]
    exact min_le_left _ _
  · unfold uniqueLoginsPerDay
    rw [List.pairwise_map]
    exact List.Pairwise.sublist (List.take_sublist _ _)
      (pairwise_sortDesc (List.nodup_dedup _))
  · intro p hp
    unfold uniqueLoginsPerDay at hp
    simp only [List.mem_map] at hp
    obtain ⟨d, hd, rfl⟩ := hp
    simp [distinctUsersOn, List.card_toFinset]

/-- Witness for the report theorem: the concrete store with three login events
on two calendar days. -/
theorem getUniqueLoginsPerDay_report_witness :
    getUniqueLoginsPerDay (some admin0) store0 =
      (.ok (uniqueLoginsPerDay store0.loginEvents), store0, []) ∧
    (uniqueLoginsPerDay store0.loginEvents).length ≤ 30 ∧
    (uniqueLoginsPerDay store0.loginEvents).Pairwise (fun p q => q.1 < p.1) ∧
    ∀ p ∈ uniqueLoginsPerDay store0.loginEvents,
      p.2 = ((store0.loginEvents.filter fun e => eventDay e == p.1).map
        LoginEvent.userId).toFinset.card :=
  getUniqueLoginsPerDay_report (some admin0) store0 rfl
